import Mathlib

/-!
Verification of the EXIF-Dumper repository's processing layer.

The Python modules `src/processing/gps_converter.py`, `src/processing/exif_processor.py`
and `src/processing/batch_processor.py` are embedded shallowly below.
Python floats are modelled as exact rationals (`ℚ`); Python dictionaries as
association lists; the file system as a partial map from path strings to file
contents; the external libraries (PIL, piexif, shutil) as explicit oracles
whose calls are recorded in a trace.
-/

namespace EXIFDumper

namespace GPSConverter

/-! ## `GPSConverter._dms_to_decimal` (gps_converter.py, lines 60-100)

The DMS datum is modelled as a list of rationals (a Python list/tuple of
numbers); the code uses the first three entries when at least three are
present and returns `None` otherwise. -/

/-- Python's `str.upper()` (character-wise uppercasing; agrees with
`String.toUpper` but written over the character list so that it evaluates). -/
def pyUpper (s : String) : String := String.mk (s.data.map Char.toUpper)

def dms_to_decimal (dmsData : List ℚ) (ref : String) : Option ℚ :=
  if 3 ≤ dmsData.length then
    let degrees := dmsData.getD 0 0
    let minutes := dmsData.getD 1 0
    let seconds := dmsData.getD 2 0
    let decimal := degrees + minutes / 60 + seconds / 3600
    some (if pyUpper ref = "S" ∨ pyUpper ref = "W" then -decimal else decimal)
  else
    none

/-! ## `GPSConverter.parse_exif_gps` (gps_converter.py, lines 14-58)

The GPS EXIF dictionary is modelled by the results of the four lookups the
code performs (`GPSLatitudeRef`/1, `GPSLatitude`/2, `GPSLongitudeRef`/3,
`GPSLongitude`/4): a missing key yields `none`.  Python truthiness of the
looked-up values (`if not all([...])`) is emptiness of the string or list. -/

structure GPSInfo where
  latRef : Option String
  latData : Option (List ℚ)
  lonRef : Option String
  lonData : Option (List ℚ)

def parse_exif_gps (g : GPSInfo) : Option (ℚ × ℚ) :=
  match g.latRef, g.latData, g.lonRef, g.lonData with
  | some latRef, some latData, some lonRef, some lonData =>
    if latRef.data.isEmpty || latData.isEmpty || lonRef.data.isEmpty
        || lonData.isEmpty then
      none
    else
      match dms_to_decimal latData latRef, dms_to_decimal lonData lonRef with
      | some latitude, some longitude =>
        if latitude < -90 ∨ 90 < latitude ∨ longitude < -180 ∨ 180 < longitude then
          none
        else if latitude = 0 ∧ longitude = 0 then
          none
        else
          some (latitude, longitude)
      | _, _ => none
  | _, _, _, _ => none

/-! ## `GPSConverter.to_utm` (gps_converter.py, lines 176-195) -/

/-- Python `int(x)` on a float: truncation toward zero. -/
def pyTrunc (q : ℚ) : ℤ := if 0 ≤ q then ⌊q⌋ else ⌈q⌉

def to_utm_zone (longitude : ℚ) : ℤ := pyTrunc ((longitude + 180) / 6) + 1

def to_utm_hemisphere (latitude : ℚ) : Char := if 0 ≤ latitude then 'N' else 'S'

def to_utm (latitude longitude : ℚ) : String :=
  "Zone " ++ toString (to_utm_zone longitude) ++ (to_utm_hemisphere latitude).toString
    ++ " (Approximate conversion - use specialized library for precise UTM)"

/-! ## `GPSConverter.to_geohash` (gps_converter.py, lines 212-261)

The loop state carries the two bisection ranges, the `even` flag, the bit
index and partial character `ch`, and the geohash accumulated so far.  The
`while len(geohash) < precision` loop is embedded as a guarded recursion on
a fuel argument; `5 * precision` iterations reach the loop's exit condition
(proved below), so `to_geohash` runs the guarded loop on that much fuel. -/

def base32 : List Char := "0123456789bcdefghjkmnpqrstuvwxyz".data

structure GState where
  latLo : ℚ
  latHi : ℚ
  lonLo : ℚ
  lonHi : ℚ
  even : Bool
  bit : ℕ
  ch : ℕ
  geohash : List Char

def geohashStep (latitude longitude : ℚ) (s : GState) : GState :=
  let s1 :=
    if s.even then
      let mid := (s.lonLo + s.lonHi) / 2
      if mid ≤ longitude then
        { s with ch := s.ch ||| (1 <<< (4 - s.bit)), lonLo := mid }
      else
        { s with lonHi := mid }
    else
      let mid := (s.latLo + s.latHi) / 2
      if mid ≤ latitude then
        { s with ch := s.ch ||| (1 <<< (4 - s.bit)), latLo := mid }
      else
        { s with latHi := mid }
  let s2 := { s1 with even := !s1.even }
  if s2.bit < 4 then
    { s2 with bit := s2.bit + 1 }
  else
    { s2 with geohash := s2.geohash ++ [base32.getD s2.ch '?'], bit := 0, ch := 0 }

def geohashLoop (latitude longitude : ℚ) (precision : ℤ) : ℕ → GState → GState
  | 0, s => s
  | n + 1, s =>
    if (s.geohash.length : ℤ) < precision then
      geohashLoop latitude longitude precision n (geohashStep latitude longitude s)
    else
      s

def geohashInit : GState :=
  { latLo := -90, latHi := 90, lonLo := -180, lonHi := 180,
    even := true, bit := 0, ch := 0, geohash := [] }

def to_geohash (latitude longitude : ℚ) (precision : ℤ) : String :=
  String.mk (geohashLoop latitude longitude precision
    (5 * precision.toNat) geohashInit).geohash

/-! ## Specification-side geohash

Modelled from the spec's description: the base-32 string obtained by
interleaved binary bisection of the longitude range [-180, 180] and the
latitude range [-90, 90], starting with longitude, one bit per bisection
(1 exactly when the coordinate is `≥` the midpoint of its current range),
emitting one alphabet symbol per 5 bits. -/

def specBits (latitude longitude : ℚ) :
    ℚ → ℚ → ℚ → ℚ → Bool → ℕ → List Bool
  | _, _, _, _, _, 0 => []
  | latLo, latHi, lonLo, lonHi, true, n + 1 =>
    let mid := (lonLo + lonHi) / 2
    if mid ≤ longitude then
      true :: specBits latitude longitude latLo latHi mid lonHi false n
    else
      false :: specBits latitude longitude latLo latHi lonLo mid false n
  | latLo, latHi, lonLo, lonHi, false, n + 1 =>
    let mid := (latLo + latHi) / 2
    if mid ≤ latitude then
      true :: specBits latitude longitude mid latHi lonLo lonHi true n
    else
      false :: specBits latitude longitude latLo mid lonLo lonHi true n

/-- One alphabet symbol per 5 bits, most significant bit first. -/
def chunkVal (b0 b1 b2 b3 b4 : Bool) : ℕ :=
  16 * b0.toNat + 8 * b1.toNat + 4 * b2.toNat + 2 * b3.toNat + b4.toNat

def bitsToChars : List Bool → List Char
  | b0 :: b1 :: b2 :: b3 :: b4 :: rest =>
    base32.getD (chunkVal b0 b1 b2 b3 b4) '?' :: bitsToChars rest
  | _ => []

def geohash_spec (latitude longitude : ℚ) (p : ℕ) : String :=
  String.mk (bitsToChars
    (specBits latitude longitude (-90) 90 (-180) 180 true (5 * p)))

/-! ## Correspondence between the loop and the bisection specification -/

/-- Value of the partial character after absorbing the bits `bs`, the first
of which sits at bit position `4 - i`. -/
def accValAux : ℕ → List Bool → ℕ
  | _, [] => 0
  | i, b :: bs => b.toNat * 2 ^ (4 - i) + accValAux (i + 1) bs

def accVal (bs : List Bool) : ℕ := accValAux 0 bs

theorem chunkVal_eq_accVal (b0 b1 b2 b3 b4 : Bool) :
    chunkVal b0 b1 b2 b3 b4 = accVal [b0, b1, b2, b3, b4] := by
  revert b0 b1 b2 b3 b4; decide

theorem accVal_snoc (acc : List Bool) (h : acc.length ≤ 4) (b : Bool) :
    (if b then accVal acc ||| (1 <<< (4 - acc.length)) else accVal acc)
      = accVal (acc ++ [b]) := by
  rcases acc with _ | ⟨a0, _ | ⟨a1, _ | ⟨a2, _ | ⟨a3, _ | ⟨a4, rest⟩⟩⟩⟩⟩
  · revert b; decide
  · revert a0 b; decide
  · revert a0 a1 b; decide
  · revert a0 a1 a2 b; decide
  · revert a0 a1 a2 a3 b; decide
  · simp only [List.length_cons] at h; omega

theorem bitsToChars_short (acc : List Bool) (h : acc.length ≤ 4) :
    bitsToChars acc = [] := by
  rcases acc with _ | ⟨a0, _ | ⟨a1, _ | ⟨a2, _ | ⟨a3, _ | ⟨a4, rest⟩⟩⟩⟩⟩ <;>
    first
      | rfl
      | (simp only [List.length_cons] at h; omega)

theorem base32_getD_mem : ∀ n : ℕ, n < 32 → base32.getD n '?' ∈ base32 := by
  decide

theorem chunkVal_lt (b0 b1 b2 b3 b4 : Bool) : chunkVal b0 b1 b2 b3 b4 < 32 := by
  revert b0 b1 b2 b3 b4; decide

/-- The unguarded iteration of the loop body. -/
def geohashSteps (latitude longitude : ℚ) : ℕ → GState → GState
  | 0, s => s
  | n + 1, s => geohashSteps latitude longitude n (geohashStep latitude longitude s)

theorem geohashStep_shape (latitude longitude : ℚ) (s : GState) :
    ((geohashStep latitude longitude s).geohash = s.geohash ∧
      (geohashStep latitude longitude s).bit = s.bit + 1 ∧ s.bit < 4) ∨
    ((geohashStep latitude longitude s).geohash.length = s.geohash.length + 1 ∧
      (geohashStep latitude longitude s).bit = 0 ∧ ¬ s.bit < 4) := by
  cases heven : s.even
  · by_cases hmid : (s.latLo + s.latHi) / 2 ≤ latitude <;>
      by_cases hb : s.bit < 4 <;>
        simp [geohashStep, heven, hmid, hb]
  · by_cases hmid : (s.lonLo + s.lonHi) / 2 ≤ longitude <;>
      by_cases hb : s.bit < 4 <;>
        simp [geohashStep, heven, hmid, hb]

/-- While the length/bit bookkeeping says the loop is not yet finished, the
guard is true, so the guarded loop agrees with the unguarded iteration. -/
theorem geohashLoop_eq_steps (latitude longitude : ℚ) (precision : ℤ) :
    ∀ (n : ℕ) (s : GState), s.bit ≤ 4 →
      5 * s.geohash.length + s.bit + n = 5 * precision.toNat →
      geohashLoop latitude longitude precision n s
        = geohashSteps latitude longitude n s := by
  intro n
  induction n with
  | zero => intro s _ _; rfl
  | succ n ih =>
    intro s hbit hlen
    have hguard : (s.geohash.length : ℤ) < precision := by omega
    simp only [geohashLoop, geohashSteps, if_pos hguard]
    rcases geohashStep_shape latitude longitude s with ⟨hg, hb, hlt⟩ | ⟨hg, hb, hlt⟩
    · exact ih _ (by omega) (by rw [hg, hb]; omega)
    · exact ih _ (by omega) (by rw [hb]; omega)

/-- Once the guard is false, the loop is the identity. -/
theorem geohashLoop_stopped (latitude longitude : ℚ) (precision : ℤ)
    (n : ℕ) (s : GState) (h : ¬ (s.geohash.length : ℤ) < precision) :
    geohashLoop latitude longitude precision n s = s := by
  cases n with
  | zero => rfl
  | succ n => simp only [geohashLoop, if_neg h]

theorem geohashLoop_add (latitude longitude : ℚ) (precision : ℤ) :
    ∀ (a b : ℕ) (s : GState),
      geohashLoop latitude longitude precision (a + b) s
        = geohashLoop latitude longitude precision b
            (geohashLoop latitude longitude precision a s) := by
  intro a
  induction a with
  | zero => intro b s; rw [Nat.zero_add]; rfl
  | succ a ih =>
    intro b s
    by_cases h : (s.geohash.length : ℤ) < precision
    · have hone : a + 1 + b = (a + b) + 1 := by omega
      rw [hone]
      simp only [geohashLoop, if_pos h]
      exact ih b (geohashStep latitude longitude s)
    · rw [geohashLoop_stopped _ _ _ _ _ h, geohashLoop_stopped _ _ _ _ _ h,
        geohashLoop_stopped _ _ _ _ _ h]

/-- Bit-level correspondence: the unguarded iteration appends exactly the
characters of the spec's interleaved bisection bits, `acc` holding the bits
already absorbed into the current partial character. -/
theorem geohashSteps_spec (latitude longitude : ℚ) :
    ∀ (n : ℕ) (s : GState) (acc : List Bool),
      s.bit = acc.length → acc.length ≤ 4 → s.ch = accVal acc →
      (geohashSteps latitude longitude n s).geohash
        = s.geohash ++ bitsToChars (acc ++
            specBits latitude longitude s.latLo s.latHi s.lonLo s.lonHi s.even n) := by
  intro n
  induction n with
  | zero =>
    intro s acc hbit hle hch
    simp [geohashSteps, specBits, bitsToChars_short acc hle]
  | succ n ih =>
    intro s acc hbit hle hch
    by_cases hb : s.bit < 4
    case pos =>
      cases heven : s.even
      case false =>
        by_cases hmid : (s.latLo + s.latHi) / 2 ≤ latitude
        case pos =>
          have hstep : geohashStep latitude longitude s
              = ⟨(s.latLo + s.latHi) / 2, s.latHi, s.lonLo, s.lonHi, true, s.bit + 1,
                  s.ch ||| (1 <<< (4 - s.bit)), s.geohash⟩ := by
            simp [geohashStep, heven, hmid, hb]
          simp only [geohashSteps]
          rw [hstep, ih _ (acc ++ [true]) (by simp [hbit]) (by simp; omega)
              (by simp [hch, hbit, ← accVal_snoc acc hle true])]
          simp [specBits, heven, hmid, List.append_assoc]
        case neg =>
          have hstep : geohashStep latitude longitude s
              = ⟨s.latLo, (s.latLo + s.latHi) / 2, s.lonLo, s.lonHi, true, s.bit + 1,
                  s.ch, s.geohash⟩ := by
            simp [geohashStep, heven, hmid, hb]
          simp only [geohashSteps]
          rw [hstep, ih _ (acc ++ [false]) (by simp [hbit]) (by simp; omega)
              (by simp [hch, ← accVal_snoc acc hle false])]
          simp [specBits, heven, hmid, List.append_assoc]
      case true =>
        by_cases hmid : (s.lonLo + s.lonHi) / 2 ≤ longitude
        case pos =>
          have hstep : geohashStep latitude longitude s
              = ⟨s.latLo, s.latHi, (s.lonLo + s.lonHi) / 2, s.lonHi, false, s.bit + 1,
                  s.ch ||| (1 <<< (4 - s.bit)), s.geohash⟩ := by
            simp [geohashStep, heven, hmid, hb]
          simp only [geohashSteps]
          rw [hstep, ih _ (acc ++ [true]) (by simp [hbit]) (by simp; omega)
              (by simp [hch, hbit, ← accVal_snoc acc hle true])]
          simp [specBits, heven, hmid, List.append_assoc]
        case neg =>
          have hstep : geohashStep latitude longitude s
              = ⟨s.latLo, s.latHi, s.lonLo, (s.lonLo + s.lonHi) / 2, false, s.bit + 1,
                  s.ch, s.geohash⟩ := by
            simp [geohashStep, heven, hmid, hb]
          simp only [geohashSteps]
          rw [hstep, ih _ (acc ++ [false]) (by simp [hbit]) (by simp; omega)
              (by simp [hch, ← accVal_snoc acc hle false])]
          simp [specBits, heven, hmid, List.append_assoc]
    case neg =>
      have h4 : acc.length = 4 := by omega
      have hex : ∃ a0 a1 a2 a3, acc = [a0, a1, a2, a3] := by
        rcases acc with _ | ⟨a0, _ | ⟨a1, _ | ⟨a2, _ | ⟨a3, _ | ⟨a4, rest⟩⟩⟩⟩⟩ <;>
          simp only [List.length_nil, List.length_cons] at h4 <;>
            first
              | exact ⟨_, _, _, _, rfl⟩
              | omega
      obtain ⟨a0, a1, a2, a3, rfl⟩ := hex
      have hsnocT := accVal_snoc [a0, a1, a2, a3] (by simp) true
      have hsnocF := accVal_snoc [a0, a1, a2, a3] (by simp) false
      simp at hsnocT hsnocF
      cases heven : s.even
      case false =>
        by_cases hmid : (s.latLo + s.latHi) / 2 ≤ latitude
        case pos =>
          have hstep : geohashStep latitude longitude s
              = ⟨(s.latLo + s.latHi) / 2, s.latHi, s.lonLo, s.lonHi, true, 0, 0,
                  s.geohash ++ [base32.getD (s.ch ||| (1 <<< (4 - s.bit))) '?']⟩ := by
            simp [geohashStep, heven, hmid, hb]
          have hchv : s.ch ||| (1 <<< (4 - s.bit)) = chunkVal a0 a1 a2 a3 true := by
            rw [hch, hbit, chunkVal_eq_accVal, ← hsnocT]; simp
          simp only [geohashSteps]
          rw [hstep, ih _ [] rfl (by simp) rfl]
          simp [specBits, heven, hmid, bitsToChars, hchv]
        case neg =>
          have hstep : geohashStep latitude longitude s
              = ⟨s.latLo, (s.latLo + s.latHi) / 2, s.lonLo, s.lonHi, true, 0, 0,
                  s.geohash ++ [base32.getD s.ch '?']⟩ := by
            simp [geohashStep, heven, hmid, hb]
          have hchv : s.ch = chunkVal a0 a1 a2 a3 false := by
            rw [hch, chunkVal_eq_accVal, ← hsnocF]
          simp only [geohashSteps]
          rw [hstep, ih _ [] rfl (by simp) rfl]
          simp [specBits, heven, hmid, bitsToChars, hchv]
      case true =>
        by_cases hmid : (s.lonLo + s.lonHi) / 2 ≤ longitude
        case pos =>
          have hstep : geohashStep latitude longitude s
              = ⟨s.latLo, s.latHi, (s.lonLo + s.lonHi) / 2, s.lonHi, false, 0, 0,
                  s.geohash ++ [base32.getD (s.ch ||| (1 <<< (4 - s.bit))) '?']⟩ := by
            simp [geohashStep, heven, hmid, hb]
          have hchv : s.ch ||| (1 <<< (4 - s.bit)) = chunkVal a0 a1 a2 a3 true := by
            rw [hch, hbit, chunkVal_eq_accVal, ← hsnocT]; simp
          simp only [geohashSteps]
          rw [hstep, ih _ [] rfl (by simp) rfl]
          simp [specBits, heven, hmid, bitsToChars, hchv]
        case neg =>
          have hstep : geohashStep latitude longitude s
              = ⟨s.latLo, s.latHi, s.lonLo, (s.lonLo + s.lonHi) / 2, false, 0, 0,
                  s.geohash ++ [base32.getD s.ch '?']⟩ := by
            simp [geohashStep, heven, hmid, hb]
          have hchv : s.ch = chunkVal a0 a1 a2 a3 false := by
            rw [hch, chunkVal_eq_accVal, ← hsnocF]
          simp only [geohashSteps]
          rw [hstep, ih _ [] rfl (by simp) rfl]
          simp [specBits, heven, hmid, bitsToChars, hchv]

theorem geohashLoop_full (latitude longitude : ℚ) (precision : ℤ) :
    geohashLoop latitude longitude precision (5 * precision.toNat) geohashInit
      = geohashSteps latitude longitude (5 * precision.toNat) geohashInit := by
  by_cases h : 0 ≤ precision
  · exact geohashLoop_eq_steps _ _ _ _ _ (by simp [geohashInit]) (by simp [geohashInit])
  · have h0 : precision.toNat = 0 := by omega
    rw [h0]
    rfl

theorem geohashSteps_full (latitude longitude : ℚ) (t : ℕ) :
    (geohashSteps latitude longitude (5 * t) geohashInit).geohash
      = bitsToChars (specBits latitude longitude (-90) 90 (-180) 180 true
          (5 * t)) := by
  have h := geohashSteps_spec latitude longitude (5 * t) geohashInit [] rfl
    (by simp) rfl
  simpa [geohashInit] using h

theorem to_geohash_eq_spec (latitude longitude : ℚ) (precision : ℤ) :
    to_geohash latitude longitude precision
      = geohash_spec latitude longitude precision.toNat := by
  unfold to_geohash geohash_spec
  rw [geohashLoop_full]
  congr 1
  have h := geohashSteps_spec latitude longitude (5 * precision.toNat) geohashInit []
    rfl (by simp) rfl
  simpa [geohashInit] using h

theorem to_geohash_data (latitude longitude : ℚ) (precision : ℤ) :
    (to_geohash latitude longitude precision).data
      = bitsToChars (specBits latitude longitude (-90) 90 (-180) 180 true
          (5 * precision.toNat)) := by
  unfold to_geohash
  rw [geohashLoop_full, geohashSteps_full]

theorem specBits_length (latitude longitude : ℚ) :
    ∀ (n : ℕ) (latLo latHi lonLo lonHi : ℚ) (even : Bool),
      (specBits latitude longitude latLo latHi lonLo lonHi even n).length = n := by
  intro n
  induction n with
  | zero => intro latLo latHi lonLo lonHi even; cases even <;> rfl
  | succ n ih =>
    intro latLo latHi lonLo lonHi even
    cases even <;> simp only [specBits] <;> split <;> simp [ih]

theorem bitsToChars_length :
    ∀ (n : ℕ) (bs : List Bool), bs.length = 5 * n → (bitsToChars bs).length = n := by
  intro n
  induction n with
  | zero =>
    intro bs h
    rcases bs with _ | ⟨b, bs⟩
    · rfl
    · simp only [List.length_cons] at h; omega
  | succ n ih =>
    intro bs h
    rcases bs with _ | ⟨b0, _ | ⟨b1, _ | ⟨b2, _ | ⟨b3, _ | ⟨b4, rest⟩⟩⟩⟩⟩ <;>
      simp only [List.length_nil, List.length_cons] at h <;>
        first
          | omega
          | (simp only [bitsToChars, List.length_cons]; rw [ih rest (by omega)])

theorem bitsToChars_mem :
    ∀ (k : ℕ) (bs : List Bool), bs.length ≤ k →
      ∀ c ∈ bitsToChars bs, c ∈ base32 := by
  intro k
  induction k with
  | zero =>
    intro bs h c hc
    rcases bs with _ | ⟨b, bs⟩
    · rw [bitsToChars_short [] (by simp)] at hc; simp at hc
    · simp only [List.length_cons] at h; omega
  | succ k ih =>
    intro bs h c hc
    rcases bs with _ | ⟨b0, _ | ⟨b1, _ | ⟨b2, _ | ⟨b3, _ | ⟨b4, rest⟩⟩⟩⟩⟩
    · rw [bitsToChars_short [] (by simp)] at hc; simp at hc
    · rw [bitsToChars_short [b0] (by simp)] at hc; simp at hc
    · rw [bitsToChars_short [b0, b1] (by simp)] at hc; simp at hc
    · rw [bitsToChars_short [b0, b1, b2] (by simp)] at hc; simp at hc
    · rw [bitsToChars_short [b0, b1, b2, b3] (by simp)] at hc; simp at hc
    · simp only [bitsToChars] at hc
      rcases List.mem_cons.mp hc with rfl | hc2
      · exact base32_getD_mem _ (chunkVal_lt b0 b1 b2 b3 b4)
      · exact ih rest (by simp only [List.length_cons] at h; omega) c hc2

/-! ## Claim theorems about the GPS converter -/

/-- C1: for every latitude in [-90, 90], longitude in [-180, 180] and precision
p ≥ 1, `to_geohash` returns the standard geohash of the point at precision p:
the base-32 string over "0123456789bcdefghjkmnpqrstuvwxyz" obtained by
interleaved binary bisection of the longitude range [-180, 180] and the
latitude range [-90, 90], starting with longitude, one bit per bisection (1
exactly when the coordinate is ≥ the midpoint of its current range), one
alphabet symbol per 5 bits (`geohash_spec`). -/
theorem to_geohash_is_standard (latitude longitude : ℚ) (p : ℤ)
    (hlat1 : -90 ≤ latitude) (hlat2 : latitude ≤ 90)
    (hlon1 : -180 ≤ longitude) (hlon2 : longitude ≤ 180) (hp : 1 ≤ p) :
    to_geohash latitude longitude p = geohash_spec latitude longitude p.toNat :=
  to_geohash_eq_spec latitude longitude p

theorem to_geohash_is_standard_witness :
    to_geohash 20 50 3 = geohash_spec 20 50 3 :=
  to_geohash_is_standard 20 50 3 (by norm_num) (by norm_num) (by norm_num)
    (by norm_num) (by norm_num)

/-- C10: for every latitude, longitude and integer precision, the geohash
loop terminates (fuel beyond the 5·precision iterations that reach the exit
condition is never consumed), and `to_geohash` returns a string of length
exactly max(precision, 0) (= `precision.toNat`) all of whose characters lie
in the 32-symbol alphabet. -/
theorem to_geohash_terminates (latitude longitude : ℚ) (precision : ℤ) :
    (∀ extra : ℕ,
      geohashLoop latitude longitude precision (5 * precision.toNat + extra)
          geohashInit
        = geohashLoop latitude longitude precision (5 * precision.toNat)
            geohashInit) ∧
    (to_geohash latitude longitude precision).length = precision.toNat ∧
    (∀ c ∈ (to_geohash latitude longitude precision).data, c ∈ base32) := by
  have hmk : to_geohash latitude longitude precision
      = String.mk (bitsToChars (specBits latitude longitude (-90) 90 (-180) 180
          true (5 * precision.toNat))) := by
    unfold to_geohash
    rw [geohashLoop_full, geohashSteps_full]
  refine ⟨?_, ?_, ?_⟩
  · intro extra
    rw [geohashLoop_add]
    apply geohashLoop_stopped
    have hsl : (geohashLoop latitude longitude precision (5 * precision.toNat)
        geohashInit).geohash.length = precision.toNat := by
      rw [geohashLoop_full, geohashSteps_full]
      exact bitsToChars_length precision.toNat _
        (specBits_length latitude longitude (5 * precision.toNat)
          (-90) 90 (-180) 180 true)
    rw [hsl]
    omega
  · rw [hmk]
    show (bitsToChars (specBits latitude longitude (-90) 90 (-180) 180
        true (5 * precision.toNat))).length = precision.toNat
    exact bitsToChars_length precision.toNat _
      (specBits_length latitude longitude (5 * precision.toNat)
        (-90) 90 (-180) 180 true)
  · intro c hc
    rw [hmk] at hc
    exact bitsToChars_mem _ _ le_rfl c hc

theorem to_geohash_terminates_witness :
    geohashLoop 1 2 2 (5 * (2 : ℤ).toNat + 7) geohashInit
        = geohashLoop 1 2 2 (5 * (2 : ℤ).toNat) geohashInit ∧
    (to_geohash 1 2 2).length = (2 : ℤ).toNat ∧
    's' ∈ base32 :=
  ⟨(to_geohash_terminates 1 2 2).1 7, (to_geohash_terminates 1 2 2).2.1,
    (to_geohash_terminates 1 2 2).2.2 's' (by
      rw [to_geohash_data, show 5 * (2 : ℤ).toNat = 10 from rfl,
        show specBits 1 2 (-90) 90 (-180) 180 true 10
            = [true, true, false, false, false, false, false, false, false, false]
          from by norm_num [specBits]]
      decide)⟩

/-- C6: for every DMS datum with at least three numeric components d, m, s and
every reference string, `dms_to_decimal` returns d + m/60 + s/3600, negated
exactly when the reference, uppercased, is "S" or "W"; a datum with fewer than
three components yields `none`. -/
theorem dms_to_decimal_spec (d m s : ℚ) (rest : List ℚ) (ref : String) :
    dms_to_decimal (d :: m :: s :: rest) ref
      = some (if pyUpper ref = "S" ∨ pyUpper ref = "W"
          then -(d + m / 60 + s / 3600) else d + m / 60 + s / 3600) ∧
    (∀ l : List ℚ, l.length < 3 → dms_to_decimal l ref = none) := by
  constructor
  · simp [dms_to_decimal]
  · intro l hl
    simp only [dms_to_decimal]
    rw [if_neg (by omega)]

theorem dms_to_decimal_spec_witness :
    dms_to_decimal [10, 30, 0] "s"
      = some (if pyUpper "s" = "S" ∨ pyUpper "s" = "W"
          then -((10 : ℚ) + 30 / 60 + 0 / 3600)
          else (10 : ℚ) + 30 / 60 + 0 / 3600) ∧
    dms_to_decimal [(1 : ℚ), 2] "s" = none :=
  ⟨(dms_to_decimal_spec 10 30 0 [] "s").1,
    (dms_to_decimal_spec 10 30 0 [] "s").2 [1, 2] (by simp)⟩

/-- C2: whenever `parse_exif_gps` returns a pair (lat, lon), then
-90 ≤ lat ≤ 90, -180 ≤ lon ≤ 180 and (lat, lon) ≠ (0, 0); and any GPS
structure whose decoded coordinates fall outside those ranges, or decode to
exactly (0, 0), yields `none`. -/
theorem parse_exif_gps_valid (g : GPSInfo) :
    (∀ la lo, parse_exif_gps g = some (la, lo) →
      -90 ≤ la ∧ la ≤ 90 ∧ -180 ≤ lo ∧ lo ≤ 180 ∧ ¬(la = 0 ∧ lo = 0)) ∧
    (∀ latRef latData lonRef lonData la lo,
      g = ⟨some latRef, some latData, some lonRef, some lonData⟩ →
      dms_to_decimal latData latRef = some la →
      dms_to_decimal lonData lonRef = some lo →
      (la < -90 ∨ 90 < la ∨ lo < -180 ∨ 180 < lo ∨ (la = 0 ∧ lo = 0)) →
      parse_exif_gps g = none) := by
  constructor
  · intro la lo h
    unfold parse_exif_gps at h
    split at h
    · split at h
      · exact absurd h (by simp)
      · split at h
        · split at h
          · exact absurd h (by simp)
          · split at h
            · exact absurd h (by simp)
            · rename_i hc1 hc2
              simp only [Option.some.injEq, Prod.mk.injEq] at h
              obtain ⟨rfl, rfl⟩ := h
              push_neg at hc1
              exact ⟨hc1.1, hc1.2.1, hc1.2.2.1, hc1.2.2.2, hc2⟩
        · exact absurd h (by simp)
    · exact absurd h (by simp)
  · intro latRef latData lonRef lonData la lo hg hd1 hd2 hbad
    subst hg
    simp only [parse_exif_gps]
    rw [hd1, hd2]
    by_cases hemp : (latRef.data.isEmpty || latData.isEmpty || lonRef.data.isEmpty
        || lonData.isEmpty) = true
    · rw [if_pos hemp]
    · rw [if_neg hemp]
      by_cases hc1 : la < -90 ∨ 90 < la ∨ lo < -180 ∨ 180 < lo
      · simp [hc1]
      · have hc2 : la = 0 ∧ lo = 0 := by tauto
        simp [hc1, hc2]

theorem parse_exif_gps_valid_witness :
    (-90 ≤ (10 : ℚ) ∧ (10 : ℚ) ≤ 90 ∧ -180 ≤ (20 : ℚ) ∧ (20 : ℚ) ≤ 180 ∧
      ¬((10 : ℚ) = 0 ∧ (20 : ℚ) = 0)) ∧
    parse_exif_gps ⟨some "N", some [200, 0, 0], some "E", some [10, 0, 0]⟩
      = none := by
  have hdN : dms_to_decimal [(200 : ℚ), 0, 0] "N" = some 200 := by
    simp only [dms_to_decimal]
    rw [if_pos (by norm_num), if_neg (by decide)]
    norm_num
  have hdE10 : dms_to_decimal [(10 : ℚ), 0, 0] "E" = some 10 := by
    simp only [dms_to_decimal]
    rw [if_pos (by norm_num), if_neg (by decide)]
    norm_num
  have hdN10 : dms_to_decimal [(10 : ℚ), 0, 0] "N" = some 10 := by
    simp only [dms_to_decimal]
    rw [if_pos (by norm_num), if_neg (by decide)]
    norm_num
  have hdE20 : dms_to_decimal [(20 : ℚ), 0, 0] "E" = some 20 := by
    simp only [dms_to_decimal]
    rw [if_pos (by norm_num), if_neg (by decide)]
    norm_num
  have hgood : parse_exif_gps ⟨some "N", some [10, 0, 0], some "E", some [20, 0, 0]⟩
      = some (10, 20) := by
    simp only [parse_exif_gps]
    rw [hdN10, hdE20]
    norm_num
  exact ⟨(parse_exif_gps_valid _).1 10 20 hgood,
    (parse_exif_gps_valid _).2 "N" [200, 0, 0] "E" [10, 0, 0] 200 10 rfl hdN hdE10
      (by norm_num)⟩

/-- C9 counterexample: longitude 180 lies in the claim's range [-180, 180],
but `to_utm_zone` gives 61 there, outside 1..60. -/
theorem to_utm_zone_at_180 :
    to_utm_zone 180 = 61 ∧ ¬(1 ≤ to_utm_zone 180 ∧ to_utm_zone 180 ≤ 60) := by
  have h : to_utm_zone 180 = 61 := by
    unfold to_utm_zone pyTrunc
    rw [if_pos (by norm_num), show ((180 : ℚ) + 180) / 6 = 60 by norm_num]
    norm_num
  exact ⟨h, by rw [h]; omega⟩

/-- C9 (amended): for every latitude and every longitude in [-180, 180), the
UTM zone number in the string returned by `to_utm` lies between 1 and 60, and
the hemisphere letter is 'N' exactly when latitude ≥ 0, 'S' otherwise.  (At
longitude = 180 itself the zone is 61, see the counterexample.) -/
theorem to_utm_zone_range (latitude longitude : ℚ)
    (h1 : -180 ≤ longitude) (h2 : longitude < 180) :
    1 ≤ to_utm_zone longitude ∧ to_utm_zone longitude ≤ 60 ∧
    (to_utm_hemisphere latitude = 'N' ↔ 0 ≤ latitude) ∧
    (to_utm_hemisphere latitude = 'S' ↔ latitude < 0) := by
  have hx : (0 : ℚ) ≤ (longitude + 180) / 6 := by
    apply div_nonneg _ (by norm_num)
    linarith
  have hf1 : (0 : ℤ) ≤ ⌊(longitude + 180) / 6⌋ := Int.floor_nonneg.mpr hx
  have hf2 : ⌊(longitude + 180) / 6⌋ < 60 := by
    apply Int.floor_lt.mpr
    rw [div_lt_iff₀ (by norm_num)]
    push_cast
    linarith
  unfold to_utm_zone pyTrunc
  rw [if_pos hx]
  refine ⟨by omega, by omega, ?_, ?_⟩
  · unfold to_utm_hemisphere
    by_cases hl : 0 ≤ latitude
    · simp [hl]
    · rw [if_neg hl]
      exact ⟨fun hc => absurd hc (by decide), fun hc => absurd hc hl⟩
  · unfold to_utm_hemisphere
    by_cases hl : 0 ≤ latitude
    · rw [if_pos hl]
      constructor
      · intro hc; exact absurd hc (by decide)
      · intro hc; exact absurd hl (by exact not_le.mpr hc)
    · rw [if_neg hl]
      exact ⟨fun _ => not_le.mp hl, fun _ => rfl⟩

theorem to_utm_zone_range_witness :
    1 ≤ to_utm_zone 0 ∧ to_utm_zone 0 ≤ 60 ∧
    (to_utm_hemisphere (-1) = 'N' ↔ 0 ≤ (-1 : ℚ)) ∧
    (to_utm_hemisphere (-1) = 'S' ↔ (-1 : ℚ) < 0) :=
  to_utm_zone_range (-1) 0 (by norm_num) (by norm_num)

end GPSConverter

/-! ## Embedding of `src/processing/exif_processor.py` and
`src/processing/batch_processor.py`

The file system is a partial map from path strings to file contents of an
abstract type `α`.  The external libraries are oracles: `PiexifLib` gives the
behaviour of `piexif.load/dump/insert/remove` on file contents, `PILLib` that
of `PIL.Image.open`.  Every external call made is recorded in a trace. -/

namespace Processing

/-- One external library / file-system call, as recorded in the trace. -/
inductive LibCall
  | copy2 (src dst : String)
  | pxLoad (path : String)
  | pxDump
  | pxInsert (path : String)
  | pxRemove (path : String)
  | imgOpen (path : String)
deriving DecidableEq, Repr

def FS (α : Type) : Type := String → Option α

/-- `shutil.copy2 src dst`: read `src`, write its contents at `dst`;
raises when the source does not exist. -/
def noFileMsg (p : String) : String := "No such file or directory: " ++ p

def fsCopy {α : Type} (fs : FS α) (src dst : String) : Except String (FS α) :=
  match fs src with
  | some c => .ok (fun p => if p = dst then some c else fs p)
  | none => .error (noFileMsg src)

/-! ### Python dictionaries as insertion-ordered association lists -/

def assocGet {K V : Type} [DecidableEq K] (d : List (K × V)) (k : K) : Option V :=
  match d with
  | [] => none
  | kv :: rest => if kv.1 = k then some kv.2 else assocGet rest k

/-- `d[k] = v`: overwrite in place when the key exists, append otherwise. -/
def assocSet {K V : Type} [DecidableEq K] (d : List (K × V)) (k : K) (v : V) :
    List (K × V) :=
  match d with
  | [] => [(k, v)]
  | kv :: rest => if kv.1 = k then (k, v) :: rest else kv :: assocSet rest k v

/-- Python `d.update(other)`. -/
def dictUpdate {K V : Type} [DecidableEq K] (d other : List (K × V)) :
    List (K × V) :=
  other.foldl (fun acc kv => assocSet acc kv.1 kv.2) d

/-- A piexif EXIF dictionary: IFD name (e.g. "0th", "Exif", "GPS") to a tag
map; tag values are of abstract type `V`. -/
abbrev ExifDict (V : Type) : Type := List (String × List (ℕ × V))

/-- The update loop in `EXIFProcessor.edit`:
`for key, value in exif_data.items(): if key in exif_dict:
exif_dict[key].update(value) else: exif_dict[key] = value`. -/
def mergeExif {V : Type} (exifDict exifData : ExifDict V) : ExifDict V :=
  exifData.foldl
    (fun acc kv =>
      match assocGet acc kv.1 with
      | some inner => assocSet acc kv.1 (dictUpdate inner kv.2)
      | none => acc ++ [(kv.1, kv.2)])
    exifDict

/-- Oracle for the piexif library: `B` is the type of dumped EXIF bytes. -/
structure PiexifLib (α V B : Type) where
  load : α → Except String (ExifDict V)
  dump : ExifDict V → Except String B
  insert : B → α → Except String α
  remove : α → Except String α

/-- Outcome of one processor operation: Python result or exception message,
the file system afterwards, and the trace of external calls attempted. -/
structure Outcome (α ρ : Type) where
  result : Except String ρ
  fs : FS α
  trace : List LibCall

structure OpResult where
  status : String
  message : String
deriving DecidableEq, Repr

/-! ### `EXIFProcessor.edit` (exif_processor.py, lines 37-55) -/

def editFailMsg (e : String) : String := "Failed to edit EXIF data: " ++ e

def EXIFProcessor.edit {α V B : Type} (lib : PiexifLib α V B) (imagePath : String)
    (exifData : ExifDict V) (preserveOriginal : Bool) (fs : FS α) :
    Outcome α OpResult :=
  let backupTrace : List LibCall :=
    if preserveOriginal then [.copy2 imagePath (imagePath ++ ".backup")] else []
  match (if preserveOriginal
         then fsCopy fs imagePath (imagePath ++ ".backup")
         else .ok fs) with
  | .error e => ⟨.error (editFailMsg e), fs, backupTrace⟩
  | .ok fs1 =>
    match fs1 imagePath with
    | none => ⟨.error (editFailMsg (noFileMsg imagePath)), fs1,
        backupTrace ++ [.pxLoad imagePath]⟩
    | some content =>
      match lib.load content with
      | .error e => ⟨.error (editFailMsg e), fs1,
          backupTrace ++ [.pxLoad imagePath]⟩
      | .ok exifDict =>
        match lib.dump (mergeExif exifDict exifData) with
        | .error e => ⟨.error (editFailMsg e), fs1,
            backupTrace ++ [.pxLoad imagePath, .pxDump]⟩
        | .ok exifBytes =>
          match lib.insert exifBytes content with
          | .error e => ⟨.error (editFailMsg e), fs1,
              backupTrace ++ [.pxLoad imagePath, .pxDump, .pxInsert imagePath]⟩
          | .ok newContent =>
            ⟨.ok ⟨"success", "EXIF data updated successfully"⟩,
              fun p => if p = imagePath then some newContent else fs1 p,
              backupTrace ++ [.pxLoad imagePath, .pxDump, .pxInsert imagePath]⟩

/-! ### `EXIFProcessor.delete` (exif_processor.py, lines 57-67) -/

def deleteFailMsg (e : String) : String := "Failed to delete EXIF data: " ++ e

def EXIFProcessor.delete {α V B : Type} (lib : PiexifLib α V B)
    (imagePath : String) (preserveOriginal : Bool) (fs : FS α) :
    Outcome α OpResult :=
  let backupTrace : List LibCall :=
    if preserveOriginal then [.copy2 imagePath (imagePath ++ ".backup")] else []
  match (if preserveOriginal
         then fsCopy fs imagePath (imagePath ++ ".backup")
         else .ok fs) with
  | .error e => ⟨.error (deleteFailMsg e), fs, backupTrace⟩
  | .ok fs1 =>
    match fs1 imagePath with
    | none => ⟨.error (deleteFailMsg (noFileMsg imagePath)), fs1,
        backupTrace ++ [.pxRemove imagePath]⟩
    | some content =>
      match lib.remove content with
      | .error e => ⟨.error (deleteFailMsg e), fs1,
          backupTrace ++ [.pxRemove imagePath]⟩
      | .ok newContent =>
        ⟨.ok ⟨"success", "EXIF data deleted successfully"⟩,
          fun p => if p = imagePath then some newContent else fs1 p,
          backupTrace ++ [.pxRemove imagePath]⟩

/-! ### `EXIFProcessor.extract` (exif_processor.py, lines 16-35) -/

/-- A value in the decoded EXIF mapping: an atomic value or a nested GPS
sub-mapping keyed by numeric GPS tag ids. -/
inductive ExifVal (V : Type)
  | atom (v : V)
  | sub (entries : List (ℕ × V))
deriving DecidableEq, Repr

/-- The loaded image: `exif` is `none` when the image has no `_getexif`
attribute or `_getexif()` returns `None`. -/
structure PILImage (V : Type) where
  exif : Option (List (ℕ × ExifVal V))
deriving DecidableEq, Repr

structure PILLib (α V : Type) where
  openImage : α → Except String (PILImage V)

/-- `TAGS.get(tag_id, tag_id)`: a name when known, the numeric id otherwise. -/
def tagKey (tags : ℕ → Option String) (tagId : ℕ) : ℕ ⊕ String :=
  match tags tagId with
  | some name => .inr name
  | none => .inl tagId

inductive OutVal (V : Type)
  | val (v : ExifVal V)
  | gps (entries : List ((ℕ ⊕ String) × V))
deriving DecidableEq, Repr

def extractFailMsg (e : String) : String := "Failed to extract EXIF data: " ++ e

/-- The `AttributeError` raised by `value.items()` when the GPSInfo value is
not a mapping. -/
def gpsItemsErrMsg : String := "'value' object has no attribute 'items'"

/-- Inner loop of extract over `gps_tag_id, gps_value` pairs. -/
def buildGps {V : Type} (gpstags : ℕ → Option String) (entries : List (ℕ × V)) :
    List ((ℕ ⊕ String) × V) :=
  entries.foldl (fun acc e => assocSet acc (tagKey gpstags e.1) e.2) []

/-- Outer loop of extract over `tag_id, value` pairs. -/
def buildExifAux {V : Type} (tags gpstags : ℕ → Option String)
    (acc : List ((ℕ ⊕ String) × OutVal V)) :
    List (ℕ × ExifVal V) → Except String (List ((ℕ ⊕ String) × OutVal V))
  | [] => .ok acc
  | (tagId, v) :: rest =>
    let key := tagKey tags tagId
    if key = Sum.inr "GPSInfo" then
      match v with
      | .sub entries =>
        buildExifAux tags gpstags (assocSet acc key (.gps (buildGps gpstags entries))) rest
      | .atom _ => .error gpsItemsErrMsg
    else
      buildExifAux tags gpstags (assocSet acc key (.val v)) rest

def EXIFProcessor.extract {α V : Type} (pil : PILLib α V)
    (tags gpstags : ℕ → Option String) (imagePath : String) (fs : FS α) :
    Outcome α (List ((ℕ ⊕ String) × OutVal V)) :=
  match fs imagePath with
  | none => ⟨.error (extractFailMsg (noFileMsg imagePath)), fs, [.imgOpen imagePath]⟩
  | some content =>
    match pil.openImage content with
    | .error e => ⟨.error (extractFailMsg e), fs, [.imgOpen imagePath]⟩
    | .ok img =>
      match img.exif with
      | none => ⟨.ok [], fs, [.imgOpen imagePath]⟩
      | some items =>
        if items.isEmpty then ⟨.ok [], fs, [.imgOpen imagePath]⟩
        else
          match buildExifAux tags gpstags [] items with
          | .ok out => ⟨.ok out, fs, [.imgOpen imagePath]⟩
          | .error e => ⟨.error (extractFailMsg e), fs, [.imgOpen imagePath]⟩

/-! ### Paths: `os.path.basename` and
`Path(file_path).parent / f"{stem}_modified{suffix}"` (batch_processor.py) -/

def lastIndexOf (l : List Char) (c : Char) : Option ℕ :=
  match l.reverse.findIdx? (· == c) with
  | some j => some (l.length - 1 - j)
  | none => none

/-- `os.path.basename`: everything after the last '/'. -/
def basename (p : String) : String :=
  match lastIndexOf p.data '/' with
  | some i => String.mk (p.data.drop (i + 1))
  | none => p

/-- Split a path into (directory prefix including the trailing '/', final
component).  Models `Path(p).parent` / `Path(p).name` for plain file paths
(non-empty final component, no trailing slash, no '.' or '..' components). -/
def splitDirname (p : String) : String × String :=
  match lastIndexOf p.data '/' with
  | some i => (String.mk (p.data.take (i + 1)), String.mk (p.data.drop (i + 1)))
  | none => ("", p)

/-- pathlib's (stem, suffix): split the name at its last dot, provided that
dot is neither the first nor the last character. -/
def splitExtname (name : String) : String × String :=
  match lastIndexOf name.data '.' with
  | some i =>
    if 0 < i ∧ i < name.data.length - 1 then
      (String.mk (name.data.take i), String.mk (name.data.drop i))
    else (name, "")
  | none => (name, "")

/-- `base_path.parent / f"{base_path.stem}_modified{base_path.suffix}"`. -/
def modifiedPath (p : String) : String :=
  (splitDirname p).1 ++ (splitExtname (splitDirname p).2).1 ++ "_modified"
    ++ (splitExtname (splitDirname p).2).2

/-! ### `BatchProcessor.run` (batch_processor.py, lines 20-43) -/

/-- The operation dispatch inside the per-file `try`:
`processor.delete(preserve_original=False)` / `processor.edit(...)`;
any other operation name does nothing. -/
def runOp {α V B : Type} (lib : PiexifLib α V B) (operation : String)
    (exifData : ExifDict V) (fs : FS α) (workingPath : String) :
    FS α × String :=
  if operation = "delete" then
    match EXIFProcessor.delete lib workingPath false fs with
    | ⟨.ok _, fs2, _⟩ => (fs2, "Success")
    | ⟨.error e, fs2, _⟩ => (fs2, "Error: " ++ e)
  else if operation = "edit" then
    match EXIFProcessor.edit lib workingPath exifData false fs with
    | ⟨.ok _, fs2, _⟩ => (fs2, "Success")
    | ⟨.error e, fs2, _⟩ => (fs2, "Error: " ++ e)
  else (fs, "Success")

/-- One iteration of the batch loop body: the `try` block (optional copy to
the `_modified` path, then the operation on the working path), producing the
file system afterwards and the per-file status string. -/
def processOne {α V B : Type} (lib : PiexifLib α V B) (operation : String)
    (exifData : ExifDict V) (preserveOriginal : Bool) (fs : FS α)
    (filePath : String) : FS α × String :=
  if preserveOriginal then
    match fsCopy fs filePath (modifiedPath filePath) with
    | .error e => (fs, "Error: " ++ e)
    | .ok fs1 => runOp lib operation exifData fs1 (modifiedPath filePath)
  else
    runOp lib operation exifData fs filePath

/-- The loop of `BatchProcessor.run` from index `i`, returning the final file
system and the list of `progress_callback(i + 1, total, basename, status)`
invocations in order. -/
def runBatchAux {α V B : Type} (lib : PiexifLib α V B) (operation : String)
    (exifData : ExifDict V) (preserveOriginal : Bool) (total : ℕ) :
    ℕ → List String → FS α → FS α × List (ℕ × ℕ × String × String)
  | _, [], fs => (fs, [])
  | i, p :: rest, fs =>
    let r := processOne lib operation exifData preserveOriginal fs p
    let t := runBatchAux lib operation exifData preserveOriginal total (i + 1) rest r.1
    (t.1, (i + 1, total, basename p, r.2) :: t.2)

def BatchProcessor.run {α V B : Type} (lib : PiexifLib α V B)
    (filePaths : List String) (operation : String) (preserveOriginal : Bool)
    (exifData : ExifDict V) (fs : FS α) :
    FS α × List (ℕ × ℕ × String × String) :=
  runBatchAux lib operation exifData preserveOriginal filePaths.length 0 filePaths fs

/-- The file system reached after the batch loop has processed a prefix of
the path list: the state in which the next file's try-block runs. -/
def batchFS {α V B : Type} (lib : PiexifLib α V B) (operation : String)
    (exifData : ExifDict V) (preserveOriginal : Bool) :
    List String → FS α → FS α
  | [], fs => fs
  | p :: rest, fs =>
    batchFS lib operation exifData preserveOriginal rest
      (processOne lib operation exifData preserveOriginal fs p).1

/-! ## Claim theorems about the processors -/

theorem path_ne_backup (p : String) : p ≠ p ++ ".backup" := by
  intro h
  have h2 := congrArg (fun s => s.data.length) h
  simp [String.data_append] at h2

/-- C4: `EXIFProcessor.edit` and `EXIFProcessor.delete` write a copy of the
image file to image_path + ".backup" iff preserve_original is true, and the
backup is written before the image is modified: afterwards the backup path
holds the image's original contents.  With preserve_original false no path
other than the image path is written, so no backup file is created. -/
theorem edit_delete_backup {α V B : Type} (lib : PiexifLib α V B) (fs : FS α)
    (imagePath : String) (exifData : ExifDict V) :
    (∀ c, fs imagePath = some c →
      (EXIFProcessor.edit lib imagePath exifData true fs).fs
          (imagePath ++ ".backup") = some c ∧
      (EXIFProcessor.delete lib imagePath true fs).fs
          (imagePath ++ ".backup") = some c) ∧
    (∀ q, q ≠ imagePath →
      (EXIFProcessor.edit lib imagePath exifData false fs).fs q = fs q ∧
      (EXIFProcessor.delete lib imagePath false fs).fs q = fs q) := by
  have hne : imagePath ≠ imagePath ++ ".backup" := path_ne_backup imagePath
  constructor
  · intro c hc
    constructor
    · unfold EXIFProcessor.edit
      simp only [fsCopy, hc, if_true]
      simp only [hne, if_neg, hc]
      repeat' split
      all_goals simp_all [Ne.symm hne]
    · unfold EXIFProcessor.delete
      simp only [fsCopy, hc, if_true]
      simp only [hne, if_neg, hc]
      repeat' split
      all_goals simp_all [Ne.symm hne]
  · intro q hq
    constructor
    · unfold EXIFProcessor.edit
      simp only [Bool.false_eq_true, if_false]
      repeat' split
      all_goals simp_all [hq]
    · unfold EXIFProcessor.delete
      simp only [Bool.false_eq_true, if_false]
      repeat' split
      all_goals simp_all [hq]

theorem runOp_delete_status {α V B : Type} (lib : PiexifLib α V B)
    (exifData : ExifDict V) (g : FS α) (w : String) :
    (runOp lib "delete" exifData g w).2
      = match (EXIFProcessor.delete lib w false g).result with
        | .ok _ => "Success"
        | .error e => "Error: " ++ e := by
  unfold runOp
  rw [if_pos rfl]
  cases hdel : EXIFProcessor.delete lib w false g with
  | mk res fs2 tr => cases res <;> rfl

theorem runOp_edit_status {α V B : Type} (lib : PiexifLib α V B)
    (exifData : ExifDict V) (g : FS α) (w : String) :
    (runOp lib "edit" exifData g w).2
      = match (EXIFProcessor.edit lib w exifData false g).result with
        | .ok _ => "Success"
        | .error e => "Error: " ++ e := by
  unfold runOp
  rw [if_neg (by decide), if_pos rfl]
  cases hedit : EXIFProcessor.edit lib w exifData false g with
  | mk res fs2 tr => cases res <;> rfl

theorem runBatchAux_exact {α V B : Type} (lib : PiexifLib α V B)
    (operation : String) (exifData : ExifDict V) (preserveOriginal : Bool)
    (total : ℕ) :
    ∀ (paths : List String) (i : ℕ) (fs : FS α),
      (runBatchAux lib operation exifData preserveOriginal total i paths fs).2.length
          = paths.length ∧
      (∀ k p, paths[k]? = some p →
        (runBatchAux lib operation exifData preserveOriginal total i paths
            fs).2[k]?
          = some (i + k + 1, total, basename p,
              (processOne lib operation exifData preserveOriginal
                (batchFS lib operation exifData preserveOriginal (paths.take k) fs)
                p).2)) := by
  intro paths
  induction paths with
  | nil =>
    intro i fs
    refine ⟨rfl, fun k p hk => ?_⟩
    simp at hk
  | cons p0 rest ih =>
    intro i fs
    constructor
    · simp [runBatchAux,
        (ih (i + 1) (processOne lib operation exifData preserveOriginal fs p0).1).1]
    · intro k p hk
      cases k with
      | zero =>
        simp only [List.getElem?_cons_zero, Option.some.injEq] at hk
        subst hk
        simp [runBatchAux, batchFS]
      | succ k =>
        simp only [List.getElem?_cons_succ] at hk
        have h2 :=
          (ih (i + 1) (processOne lib operation exifData preserveOriginal fs p0).1).2
            k p hk
        have harith : i + (k + 1) + 1 = i + 1 + k + 1 := by omega
        simp only [runBatchAux, List.getElem?_cons_succ, harith,
          List.take_succ_cons, batchFS]
        exact h2

/-- C3: `BatchProcessor.run` invokes the progress callback exactly once per
file, in list order, the k-th call (1-based) carrying (k, n, basename of the
k-th path, status), and the status is exactly the outcome of that file's
try-block run in the file system the loop has reached: "Error: " followed by
the exception message when the copy or the operation raised, "Success"
otherwise.  A file's failure never prevents the remaining files from being
processed and reported: the callback list always has one entry per file. -/
theorem batch_run_reports {α V B : Type} (lib : PiexifLib α V B)
    (filePaths : List String) (operation : String) (preserveOriginal : Bool)
    (exifData : ExifDict V) (fs : FS α) :
    (BatchProcessor.run lib filePaths operation preserveOriginal exifData
        fs).2.length = filePaths.length ∧
    (∀ k p, filePaths[k]? = some p →
      (BatchProcessor.run lib filePaths operation preserveOriginal exifData
          fs).2[k]?
        = some (k + 1, filePaths.length, basename p,
            (processOne lib operation exifData preserveOriginal
              (batchFS lib operation exifData preserveOriginal (filePaths.take k)
                fs) p).2)) ∧
    (∀ (g : FS α) p e, fsCopy g p (modifiedPath p) = .error e →
      (processOne lib operation exifData true g p).2 = "Error: " ++ e) ∧
    (∀ (g : FS α) p fs1, fsCopy g p (modifiedPath p) = .ok fs1 →
      (processOne lib operation exifData true g p).2
        = (runOp lib operation exifData fs1 (modifiedPath p)).2) ∧
    (∀ (g : FS α) p,
      (processOne lib operation exifData false g p).2
        = (runOp lib operation exifData g p).2) ∧
    (∀ (g : FS α) w e, operation = "delete" →
      (EXIFProcessor.delete lib w false g).result = .error e →
      (runOp lib operation exifData g w).2 = "Error: " ++ e) ∧
    (∀ (g : FS α) w r, operation = "delete" →
      (EXIFProcessor.delete lib w false g).result = .ok r →
      (runOp lib operation exifData g w).2 = "Success") ∧
    (∀ (g : FS α) w e, operation = "edit" →
      (EXIFProcessor.edit lib w exifData false g).result = .error e →
      (runOp lib operation exifData g w).2 = "Error: " ++ e) ∧
    (∀ (g : FS α) w r, operation = "edit" →
      (EXIFProcessor.edit lib w exifData false g).result = .ok r →
      (runOp lib operation exifData g w).2 = "Success") ∧
    (∀ k p e, filePaths[k]? = some p → preserveOriginal = false →
      operation = "delete" →
      (EXIFProcessor.delete lib p false
          (batchFS lib operation exifData preserveOriginal (filePaths.take k)
            fs)).result = .error e →
      (BatchProcessor.run lib filePaths operation preserveOriginal exifData
          fs).2[k]?
        = some (k + 1, filePaths.length, basename p, "Error: " ++ e)) := by
  have hex := runBatchAux_exact lib operation exifData preserveOriginal
    filePaths.length filePaths 0 fs
  have hEntry : ∀ k p, filePaths[k]? = some p →
      (BatchProcessor.run lib filePaths operation preserveOriginal exifData
          fs).2[k]?
        = some (k + 1, filePaths.length, basename p,
            (processOne lib operation exifData preserveOriginal
              (batchFS lib operation exifData preserveOriginal (filePaths.take k)
                fs) p).2) := by
    intro k p hk
    have h := hex.2 k p hk
    have harith : (0 : ℕ) + k + 1 = k + 1 := by omega
    rw [harith] at h
    exact h
  refine ⟨hex.1, hEntry, ?_, ?_, ?_, ?_, ?_, ?_, ?_, ?_⟩
  · intro g p e hErr
    unfold processOne
    rw [if_pos rfl, hErr]
  · intro g p fs1 hOk
    unfold processOne
    rw [if_pos rfl, hOk]
  · intro g p
    unfold processOne
    rw [if_neg (by simp)]
  · intro g w e hop hres
    subst hop
    rw [runOp_delete_status, hres]
  · intro g w r hop hres
    subst hop
    rw [runOp_delete_status, hres]
  · intro g w e hop hres
    subst hop
    rw [runOp_edit_status, hres]
  · intro g w r hop hres
    subst hop
    rw [runOp_edit_status, hres]
  · intro k p e hk hpres hop hres
    subst hpres
    subst hop
    have h := hEntry k p hk
    have hstat : (processOne lib "delete" exifData false
        (batchFS lib "delete" exifData false (filePaths.take k) fs) p).2
        = "Error: " ++ e := by
      unfold processOne
      rw [if_neg (by simp), runOp_delete_status, hres]
    rw [hstat] at h
    exact h

theorem splitDirname_append (p : String) :
    (splitDirname p).1 ++ (splitDirname p).2 = p := by
  unfold splitDirname
  cases h : lastIndexOf p.data '/' with
  | none => simp
  | some i =>
    show String.mk (p.data.take (i + 1) ++ p.data.drop (i + 1)) = p
    rw [List.take_append_drop]

theorem splitExtname_append (name : String) :
    (splitExtname name).1 ++ (splitExtname name).2 = name := by
  unfold splitExtname
  cases h : lastIndexOf name.data '.' with
  | none => simp
  | some i =>
    dsimp only
    by_cases hcond : 0 < i ∧ i < name.data.length - 1
    · rw [if_pos hcond]
      show String.mk (name.data.take i ++ name.data.drop i) = name
      rw [List.take_append_drop]
    · rw [if_neg hcond]
      simp

theorem modifiedPath_length (p : String) :
    (modifiedPath p).data.length = p.data.length + 9 := by
  have h1 := congrArg (fun s => s.data.length) (splitDirname_append p)
  have h2 := congrArg (fun s => s.data.length) (splitExtname_append (splitDirname p).2)
  have h9 : ("_modified" : String).data.length = 9 := by decide
  simp only [String.data_append, List.length_append] at h1 h2
  unfold modifiedPath
  simp only [String.data_append, List.length_append, h9]
  omega

theorem modifiedPath_ne (p : String) : modifiedPath p ≠ p := by
  intro h
  have h3 := congrArg (fun s => s.data.length) h
  simp only [modifiedPath_length] at h3
  omega

theorem delete_fs_frame {α V B : Type} (lib : PiexifLib α V B) (w : String)
    (preserve : Bool) (fs : FS α) (q : String) (hq : q ≠ w)
    (hqb : q ≠ w ++ ".backup") :
    (EXIFProcessor.delete lib w preserve fs).fs q = fs q := by
  have hwb := path_ne_backup w
  unfold EXIFProcessor.delete
  cases preserve <;> cases hfsw : fs w <;>
    simp only [fsCopy, hfsw, reduceIte, hwb] <;>
      repeat' split
  all_goals simp_all [hq, hqb, hwb]

theorem edit_fs_frame {α V B : Type} (lib : PiexifLib α V B) (w : String)
    (exifData : ExifDict V) (preserve : Bool) (fs : FS α) (q : String)
    (hq : q ≠ w) (hqb : q ≠ w ++ ".backup") :
    (EXIFProcessor.edit lib w exifData preserve fs).fs q = fs q := by
  have hwb := path_ne_backup w
  unfold EXIFProcessor.edit
  cases preserve <;> cases hfsw : fs w <;>
    simp only [fsCopy, hfsw, reduceIte, hwb] <;>
      repeat' split
  all_goals simp_all [hq, hqb, hwb]

theorem delete_no_preserve_result {α V B : Type} (lib : PiexifLib α V B)
    (w : String) (fs : FS α) (c : α) (hc : fs w = some c) :
    (∀ d, lib.remove c = .ok d →
      (EXIFProcessor.delete lib w false fs).fs
        = fun p => if p = w then some d else fs p) ∧
    (∀ e, lib.remove c = .error e →
      (EXIFProcessor.delete lib w false fs).fs = fs) := by
  unfold EXIFProcessor.delete
  simp only [Bool.false_eq_true, if_false, hc]
  constructor
  · intro d hd
    rw [hd]
  · intro e he
    rw [he]

theorem runOp_fs_delete {α V B : Type} (lib : PiexifLib α V B)
    (exifData : ExifDict V) (fs : FS α) (w : String) :
    (runOp lib "delete" exifData fs w).1
      = (EXIFProcessor.delete lib w false fs).fs := by
  unfold runOp
  rw [if_pos rfl]
  split
  · rename_i fs2 tr h
    rw [h]
  · rename_i e fs2 tr h
    rw [h]

theorem runOp_fs_edit {α V B : Type} (lib : PiexifLib α V B)
    (exifData : ExifDict V) (fs : FS α) (w : String) :
    (runOp lib "edit" exifData fs w).1
      = (EXIFProcessor.edit lib w exifData false fs).fs := by
  unfold runOp
  rw [if_neg (by decide), if_pos rfl]
  split
  · rename_i fs2 tr h
    rw [h]
  · rename_i e fs2 tr h
    rw [h]

theorem delete_fs_frame_false {α V B : Type} (lib : PiexifLib α V B)
    (w : String) (fs : FS α) (q : String) (hq : q ≠ w) :
    (EXIFProcessor.delete lib w false fs).fs q = fs q := by
  unfold EXIFProcessor.delete
  cases hfsw : fs w <;>
    simp only [fsCopy, hfsw, reduceIte] <;>
      repeat' split
  all_goals simp_all [hq]

theorem edit_fs_frame_false {α V B : Type} (lib : PiexifLib α V B)
    (w : String) (exifData : ExifDict V) (fs : FS α) (q : String) (hq : q ≠ w) :
    (EXIFProcessor.edit lib w exifData false fs).fs q = fs q := by
  unfold EXIFProcessor.edit
  cases hfsw : fs w <;>
    simp only [fsCopy, hfsw, reduceIte] <;>
      repeat' split
  all_goals simp_all [hq]

/-- C5: in batch mode with preserve_original true, the per-file body copies
the file to a path in the same directory whose name is the stem with
"_modified" appended and the extension preserved, applies the operation to
that copy, and leaves the original file's contents unchanged; with
preserve_original false the original file itself is modified in place and no
other path is written. -/
theorem batch_preserve_semantics {α V B : Type} (lib : PiexifLib α V B)
    (exifData : ExifDict V) (fs : FS α) (filePath : String) (c : α)
    (hc : fs filePath = some c) :
    (modifiedPath filePath
      = (splitDirname filePath).1 ++ (splitExtname (splitDirname filePath).2).1
          ++ "_modified" ++ (splitExtname (splitDirname filePath).2).2) ∧
    ((splitDirname filePath).1 ++ (splitDirname filePath).2 = filePath) ∧
    ((splitExtname (splitDirname filePath).2).1
        ++ (splitExtname (splitDirname filePath).2).2
      = (splitDirname filePath).2) ∧
    modifiedPath filePath ≠ filePath ∧
    ((processOne lib "delete" exifData true fs filePath).1 filePath = some c) ∧
    ((processOne lib "edit" exifData true fs filePath).1 filePath = some c) ∧
    (∀ d, lib.remove c = .ok d →
      (processOne lib "delete" exifData true fs filePath).1 (modifiedPath filePath)
        = some d) ∧
    (∀ d, lib.remove c = .ok d →
      (processOne lib "delete" exifData false fs filePath).1 filePath = some d) ∧
    (∀ q, q ≠ filePath →
      (processOne lib "delete" exifData false fs filePath).1 q = fs q) := by
  have hfm : filePath ≠ modifiedPath filePath := (modifiedPath_ne filePath).symm
  have hcopy : fsCopy fs filePath (modifiedPath filePath)
      = .ok (fun p => if p = modifiedPath filePath then some c else fs p) := by
    simp [fsCopy, hc]
  refine ⟨rfl, splitDirname_append filePath,
    splitExtname_append (splitDirname filePath).2, modifiedPath_ne filePath,
    ?_, ?_, ?_, ?_, ?_⟩
  · unfold processOne
    rw [if_pos rfl, hcopy]
    rw [runOp_fs_delete,
      delete_fs_frame_false lib (modifiedPath filePath) _ filePath hfm]
    simp [hfm, hc]
  · unfold processOne
    rw [if_pos rfl, hcopy]
    rw [runOp_fs_edit,
      edit_fs_frame_false lib (modifiedPath filePath) exifData _ filePath hfm]
    simp [hfm, hc]
  · intro d hd
    unfold processOne
    rw [if_pos rfl, hcopy]
    rw [runOp_fs_delete,
      (delete_no_preserve_result lib (modifiedPath filePath) _ c (by simp)).1 d hd]
    simp
  · intro d hd
    unfold processOne
    rw [if_neg (by simp)]
    rw [runOp_fs_delete, (delete_no_preserve_result lib filePath fs c hc).1 d hd]
    simp
  · intro q hq
    unfold processOne
    rw [if_neg (by simp)]
    rw [runOp_fs_delete]
    exact delete_fs_frame_false lib filePath fs q hq

/-- C7: each of extract, edit and delete attempts its underlying library
operation exactly once and never retries: extract's call trace is exactly one
`Image.open`, edit's and delete's traces are duplicate-free with at most one
`piexif.insert` / `piexif.remove`; every failure is a single wrapped
exception whose message is the operation's prefix followed by the original
exception message verbatim; on success extract returns the decoded
tag-to-value dictionary and edit/delete return a result with status
"success". -/
theorem processor_single_attempt {α V B : Type} (pil : PILLib α V)
    (tags gpstags : ℕ → Option String) (lib : PiexifLib α V B)
    (imagePath : String) (exifData : ExifDict V) (preserve : Bool) (fs : FS α) :
    ((EXIFProcessor.extract pil tags gpstags imagePath fs).trace
        = [.imgOpen imagePath]) ∧
    (∀ e, (EXIFProcessor.extract pil tags gpstags imagePath fs).result
        = .error e → ∃ m, e = "Failed to extract EXIF data: " ++ m) ∧
    (∀ content img items out, fs imagePath = some content →
      pil.openImage content = .ok img → img.exif = some items →
      items.isEmpty = false → buildExifAux tags gpstags [] items = .ok out →
      (EXIFProcessor.extract pil tags gpstags imagePath fs).result = .ok out) ∧
    ((EXIFProcessor.edit lib imagePath exifData preserve fs).trace.Nodup ∧
      (EXIFProcessor.edit lib imagePath exifData preserve fs).trace.count
          (.pxInsert imagePath) ≤ 1) ∧
    (∀ e, (EXIFProcessor.edit lib imagePath exifData preserve fs).result
        = .error e → ∃ m, e = "Failed to edit EXIF data: " ++ m) ∧
    (∀ r, (EXIFProcessor.edit lib imagePath exifData preserve fs).result
        = .ok r → r.status = "success") ∧
    ((EXIFProcessor.delete lib imagePath preserve fs).trace.Nodup ∧
      (EXIFProcessor.delete lib imagePath preserve fs).trace.count
          (.pxRemove imagePath) ≤ 1) ∧
    (∀ e, (EXIFProcessor.delete lib imagePath preserve fs).result
        = .error e → ∃ m, e = "Failed to delete EXIF data: " ++ m) ∧
    (∀ r, (EXIFProcessor.delete lib imagePath preserve fs).result
        = .ok r → r.status = "success") ∧
    (fs imagePath = none →
      (EXIFProcessor.extract pil tags gpstags imagePath fs).result
        = .error ("Failed to extract EXIF data: " ++ noFileMsg imagePath)) ∧
    (∀ c e, fs imagePath = some c → pil.openImage c = .error e →
      (EXIFProcessor.extract pil tags gpstags imagePath fs).result
        = .error ("Failed to extract EXIF data: " ++ e)) ∧
    (∀ c img items e, fs imagePath = some c → pil.openImage c = .ok img →
      img.exif = some items → items.isEmpty = false →
      buildExifAux tags gpstags [] items = .error e →
      (EXIFProcessor.extract pil tags gpstags imagePath fs).result
        = .error ("Failed to extract EXIF data: " ++ e)) ∧
    (fs imagePath = none →
      (EXIFProcessor.edit lib imagePath exifData preserve fs).result
        = .error ("Failed to edit EXIF data: " ++ noFileMsg imagePath)) ∧
    (∀ c e, fs imagePath = some c → lib.load c = .error e →
      (EXIFProcessor.edit lib imagePath exifData preserve fs).result
        = .error ("Failed to edit EXIF data: " ++ e)) ∧
    (∀ c d e, fs imagePath = some c → lib.load c = .ok d →
      lib.dump (mergeExif d exifData) = .error e →
      (EXIFProcessor.edit lib imagePath exifData preserve fs).result
        = .error ("Failed to edit EXIF data: " ++ e)) ∧
    (∀ c d b e, fs imagePath = some c → lib.load c = .ok d →
      lib.dump (mergeExif d exifData) = .ok b → lib.insert b c = .error e →
      (EXIFProcessor.edit lib imagePath exifData preserve fs).result
        = .error ("Failed to edit EXIF data: " ++ e)) ∧
    (fs imagePath = none →
      (EXIFProcessor.delete lib imagePath preserve fs).result
        = .error ("Failed to delete EXIF data: " ++ noFileMsg imagePath)) ∧
    (∀ c e, fs imagePath = some c → lib.remove c = .error e →
      (EXIFProcessor.delete lib imagePath preserve fs).result
        = .error ("Failed to delete EXIF data: " ++ e)) := by
  have hwb := path_ne_backup imagePath
  refine ⟨?_, ?_, ?_, ?_, ?_, ?_, ?_, ?_, ?_, ?_, ?_, ?_, ?_, ?_, ?_, ?_, ?_, ?_⟩
  · unfold EXIFProcessor.extract
    cases hfs : fs imagePath <;> simp only [hfs] <;> repeat' split
    all_goals rfl
  · intro e he
    unfold EXIFProcessor.extract at he
    cases hfs : fs imagePath <;> simp only [hfs] at he <;> repeat' split at he
    all_goals first
      | exact Except.noConfusion he
      | (simp only [extractFailMsg] at he
         injection he with h
         exact ⟨_, h.symm⟩)
  · intro content img items out hcont hopen hexif hne hbuild
    unfold EXIFProcessor.extract
    simp only [hcont, hopen, hexif, hne, Bool.false_eq_true, if_false, hbuild]
  · unfold EXIFProcessor.edit
    cases preserve <;> cases hfs : fs imagePath <;>
      simp only [fsCopy, hfs, reduceIte, hwb] <;>
        repeat' split
    all_goals simp [List.count_cons]
  · intro e he
    unfold EXIFProcessor.edit at he
    cases preserve <;> cases hfs : fs imagePath <;>
      simp only [fsCopy, hfs, reduceIte, hwb] at he <;>
        repeat' split at he
    all_goals first
      | exact Except.noConfusion he
      | (simp only [editFailMsg] at he
         injection he with h
         exact ⟨_, h.symm⟩)
  · intro r hr
    unfold EXIFProcessor.edit at hr
    cases preserve <;> cases hfs : fs imagePath <;>
      simp only [fsCopy, hfs, reduceIte, hwb] at hr <;>
        repeat' split at hr
    all_goals first
      | exact Except.noConfusion hr
      | (injection hr with h
         subst h
         rfl)
  · unfold EXIFProcessor.delete
    cases preserve <;> cases hfs : fs imagePath <;>
      simp only [fsCopy, hfs, reduceIte, hwb] <;>
        repeat' split
    all_goals simp [List.count_cons]
  · intro e he
    unfold EXIFProcessor.delete at he
    cases preserve <;> cases hfs : fs imagePath <;>
      simp only [fsCopy, hfs, reduceIte, hwb] at he <;>
        repeat' split at he
    all_goals first
      | exact Except.noConfusion he
      | (simp only [deleteFailMsg] at he
         injection he with h
         exact ⟨_, h.symm⟩)
  · intro r hr
    unfold EXIFProcessor.delete at hr
    cases preserve <;> cases hfs : fs imagePath <;>
      simp only [fsCopy, hfs, reduceIte, hwb] at hr <;>
        repeat' split at hr
    all_goals first
      | exact Except.noConfusion hr
      | (injection hr with h
         subst h
         rfl)
  · intro h0
    unfold EXIFProcessor.extract
    simp only [h0]
    rfl
  · intro c e hc hopen
    unfold EXIFProcessor.extract
    simp only [hc, hopen]
    rfl
  · intro c img items e hc hopen hexif hne hbuild
    unfold EXIFProcessor.extract
    simp only [hc, hopen, hexif, hne, Bool.false_eq_true, if_false, hbuild]
    rfl
  · intro h0
    unfold EXIFProcessor.edit
    cases preserve <;> simp [fsCopy, h0, editFailMsg]
  · intro c e hc hl
    unfold EXIFProcessor.edit
    cases preserve <;> simp [fsCopy, hc, hwb, hl, editFailMsg]
  · intro c d e hc hl hd
    unfold EXIFProcessor.edit
    cases preserve <;> simp [fsCopy, hc, hwb, hl, hd, editFailMsg]
  · intro c d b e hc hl hd hins
    unfold EXIFProcessor.edit
    cases preserve <;> simp [fsCopy, hc, hwb, hl, hd, hins, editFailMsg]
  · intro h0
    unfold EXIFProcessor.delete
    cases preserve <;> simp [fsCopy, h0, deleteFailMsg]
  · intro c e hc hrem
    unfold EXIFProcessor.delete
    cases preserve <;> simp [fsCopy, hc, hwb, hrem, deleteFailMsg]

/-! ### Concrete instances used by the witnesses -/

def lib0 : PiexifLib String ℕ String :=
  ⟨fun _ => .ok [], fun _ => .ok "BYTES", fun _ _ => .ok "INSERTED",
    fun _ => .ok "REMOVED"⟩

def fs0 : FS String := fun p => if p = "d/a.jpg" then some "ORIG" else none

def pil0 : PILLib String ℕ := ⟨fun _ => .ok ⟨some [(1, .atom 5)]⟩⟩

def tags0 : ℕ → Option String := fun _ => none

/-- Oracles whose every call fails, for exercising the error-propagation
clauses. -/
def lib1 : PiexifLib String ℕ String :=
  ⟨fun _ => .error "load boom", fun _ => .error "dump boom",
    fun _ _ => .error "insert boom", fun _ => .error "remove boom"⟩

def pil1 : PILLib String ℕ := ⟨fun _ => .error "open boom"⟩

theorem batch_run_reports_witness :
    (BatchProcessor.run lib0 ["d/a.jpg", "missing.jpg"] "delete" false []
        fs0).2.length = 2 ∧
    (BatchProcessor.run lib0 ["d/a.jpg", "missing.jpg"] "delete" false []
        fs0).2[0]?
      = some (1, 2, basename "d/a.jpg", "Success") ∧
    (BatchProcessor.run lib0 ["d/a.jpg", "missing.jpg"] "delete" false []
        fs0).2[1]?
      = some (2, 2, basename "missing.jpg",
          "Error: " ++ deleteFailMsg (noFileMsg "missing.jpg")) := by
  have h := batch_run_reports lib0 ["d/a.jpg", "missing.jpg"] "delete" false [] fs0
  exact ⟨h.1, h.2.1 0 "d/a.jpg" rfl,
    h.2.2.2.2.2.2.2.2.2 1 "missing.jpg"
      (deleteFailMsg (noFileMsg "missing.jpg")) rfl rfl rfl rfl⟩

theorem edit_delete_backup_witness :
    (EXIFProcessor.edit lib0 "d/a.jpg" [] true fs0).fs ("d/a.jpg" ++ ".backup")
        = some "ORIG" ∧
    (EXIFProcessor.delete lib0 "d/a.jpg" true fs0).fs ("d/a.jpg" ++ ".backup")
        = some "ORIG" ∧
    (EXIFProcessor.edit lib0 "d/a.jpg" [] false fs0).fs "q.jpg" = fs0 "q.jpg" ∧
    (EXIFProcessor.delete lib0 "d/a.jpg" false fs0).fs "q.jpg" = fs0 "q.jpg" :=
  ⟨((edit_delete_backup lib0 fs0 "d/a.jpg" []).1 "ORIG" rfl).1,
    ((edit_delete_backup lib0 fs0 "d/a.jpg" []).1 "ORIG" rfl).2,
    ((edit_delete_backup lib0 fs0 "d/a.jpg" []).2 "q.jpg" (by decide)).1,
    ((edit_delete_backup lib0 fs0 "d/a.jpg" []).2 "q.jpg" (by decide)).2⟩

theorem batch_preserve_semantics_witness :
    ((processOne lib0 "delete" [] true fs0 "d/a.jpg").1 "d/a.jpg"
        = some "ORIG") ∧
    ((processOne lib0 "delete" [] true fs0 "d/a.jpg").1 (modifiedPath "d/a.jpg")
        = some "REMOVED") ∧
    ((processOne lib0 "delete" [] false fs0 "d/a.jpg").1 "d/a.jpg"
        = some "REMOVED") ∧
    ((processOne lib0 "delete" [] false fs0 "d/a.jpg").1 "q.jpg"
        = fs0 "q.jpg") := by
  have h := batch_preserve_semantics lib0 [] fs0 "d/a.jpg" "ORIG" rfl
  exact ⟨h.2.2.2.2.1, h.2.2.2.2.2.2.1 "REMOVED" rfl,
    h.2.2.2.2.2.2.2.1 "REMOVED" rfl, h.2.2.2.2.2.2.2.2 "q.jpg" (by decide)⟩

theorem processor_single_attempt_witness :
    ((EXIFProcessor.extract pil0 tags0 tags0 "d/a.jpg" fs0).trace
        = [.imgOpen "d/a.jpg"]) ∧
    (∃ m, extractFailMsg (noFileMsg "nope")
        = "Failed to extract EXIF data: " ++ m) ∧
    ((EXIFProcessor.extract pil0 tags0 tags0 "d/a.jpg" fs0).result
        = .ok [(Sum.inl 1, .val (.atom 5))]) ∧
    ((EXIFProcessor.edit lib0 "d/a.jpg" [] true fs0).trace.Nodup ∧
      (EXIFProcessor.edit lib0 "d/a.jpg" [] true fs0).trace.count
          (.pxInsert "d/a.jpg") ≤ 1) ∧
    (∃ m, editFailMsg (noFileMsg "nope") = "Failed to edit EXIF data: " ++ m) ∧
    (OpResult.status ⟨"success", "EXIF data updated successfully"⟩
        = "success") ∧
    ((EXIFProcessor.delete lib0 "d/a.jpg" true fs0).trace.Nodup ∧
      (EXIFProcessor.delete lib0 "d/a.jpg" true fs0).trace.count
          (.pxRemove "d/a.jpg") ≤ 1) ∧
    (∃ m, deleteFailMsg (noFileMsg "nope")
        = "Failed to delete EXIF data: " ++ m) ∧
    (OpResult.status ⟨"success", "EXIF data deleted successfully"⟩
        = "success") ∧
    ((EXIFProcessor.extract pil1 tags0 tags0 "d/a.jpg" fs0).result
        = .error ("Failed to extract EXIF data: " ++ "open boom")) ∧
    ((EXIFProcessor.edit lib1 "d/a.jpg" [] true fs0).result
        = .error ("Failed to edit EXIF data: " ++ "load boom")) ∧
    ((EXIFProcessor.delete lib1 "d/a.jpg" true fs0).result
        = .error ("Failed to delete EXIF data: " ++ "remove boom")) := by
  obtain ⟨gA1, -, gA3, gA4, -, -, gA7, -, -, -, -, -, -, -, -, -, -, -⟩ :=
    processor_single_attempt pil0 tags0 tags0 lib0 "d/a.jpg" [] true fs0
  obtain ⟨-, gB2, -, -, gB5, -, -, gB8, -, -, -, -, -, -, -, -, -, -⟩ :=
    processor_single_attempt pil0 tags0 tags0 lib0 "nope" [] true fs0
  obtain ⟨-, -, -, -, -, gC6, -, -, gC9, -, -, -, -, -, -, -, -, -⟩ :=
    processor_single_attempt pil0 tags0 tags0 lib0 "d/a.jpg" [] false fs0
  obtain ⟨-, -, -, -, -, -, -, -, -, -, gD11, -, -, gD14, -, -, -, gD18⟩ :=
    processor_single_attempt pil1 tags0 tags0 lib1 "d/a.jpg" [] true fs0
  exact ⟨gA1,
    gB2 (extractFailMsg (noFileMsg "nope")) rfl,
    gA3 "ORIG" ⟨some [(1, .atom 5)]⟩ [(1, .atom 5)] [(Sum.inl 1, .val (.atom 5))]
      rfl rfl rfl rfl rfl,
    gA4,
    gB5 (editFailMsg (noFileMsg "nope")) rfl,
    gC6 ⟨"success", "EXIF data updated successfully"⟩ rfl,
    gA7,
    gB8 (deleteFailMsg (noFileMsg "nope")) rfl,
    gC9 ⟨"success", "EXIF data deleted successfully"⟩ rfl,
    gD11 "ORIG" "open boom" rfl rfl,
    gD14 "ORIG" "load boom" rfl rfl,
    gD18 "ORIG" "remove boom" rfl rfl⟩

end Processing

end EXIFDumper
